import Mathlib

/-
  Shallow embedding of the service worker in `src/service-worker.js`.
  The file holds two worker versions separated by a document marker:
  the v1 worker (lines 1-89) and the v2 worker (lines 90-345).  The
  definitions below translate both fetch handlers, the v2 activate
  handler and the v2 message handler.  JS strings become Lean `String`,
  the platform cache store becomes an association list from bucket name
  to an association list from request key (the URL) to a response
  snapshot, and a network fetch is an explicit `NetResult` input.
-/

namespace ZombieSW

/-! ### JS string primitives (`includes`, `endsWith`, `split('/').pop()`) -/

/-- Model of checking that the second list starts with the first
(the prefix test used to build `includes` and `endsWith`). -/
def listPrefixOf : List Char → List Char → Bool
  | [], _ => true
  | _ :: _, [] => false
  | a :: as, b :: bs => (a == b) && listPrefixOf as bs

/-- Model of JS `String.prototype.includes`: the pattern occurs as a
contiguous sublist. -/
def listContains (pat : List Char) : List Char → Bool
  | [] => listPrefixOf pat []
  | a :: t => listPrefixOf pat (a :: t) || listContains pat t

/-- Model of JS `String.prototype.endsWith`: the pattern equals some
suffix of the string. -/
def listEndsWith (pat : List Char) : List Char → Bool
  | [] => pat == []
  | a :: t => (pat == a :: t) || listEndsWith pat t

/-- `s.includes(pat)` on strings. -/
def strContains (s pat : String) : Bool := listContains pat.data s.data

/-- `s.endsWith(pat)` on strings. -/
def strEndsWith (s pat : String) : Bool := listEndsWith pat.data s.data

/-- JS `f.split('/').pop()`: the characters after the last `/`
(empty when the string ends in `/`). -/
def basenameAux (acc : List Char) : List Char → List Char
  | [] => acc.reverse
  | c :: t => if c = '/' then basenameAux [] t else basenameAux (c :: acc) t

/-- The final path segment of an asset entry, as in
`file.split('/').pop()` at line 196 of the source. -/
def basename (f : String) : String := ⟨basenameAux [] f.data⟩

/-- JS `new URL(href).protocol`: the scheme up to and including the
first colon. -/
def urlProtocol (href : String) : String :=
  ⟨href.data.takeWhile (fun c => !(c == ':'))⟩ ++ ":"

/-! ### Data model -/

/-- Response snapshot: status, statusText and body.  A JS `Response`
constructed without a status has status 200 and statusText `""`. -/
structure Response where
  status : Nat
  statusText : String
  body : String
deriving DecidableEq

/-- The attributes of a fetch-event request the worker inspects: the
URL and the `accept` header (`none` when the header is absent, in which
case `headers.get('accept')` is `null` in JS). -/
structure Request where
  href : String
  accept : Option String
deriving DecidableEq

/-- Result of the network fetch for a request: a resolved response or a
rejected fetch (network error). -/
inductive NetResult where
  | success (r : Response)
  | failure
deriving DecidableEq

/-- What the promise passed to `event.respondWith` settles to:
a response, `undefined` (a resolved promise carrying no response), or a
rejection (an exception thrown while computing the response). -/
inductive FetchResult where
  | responded (r : Response)
  | noResponse
  | rejected
deriving DecidableEq

/-- A cache bucket: request key (URL string) to response snapshot. -/
abbrev Bucket := List (String × Response)

/-- The platform cache store: bucket name to bucket. -/
abbrev CacheStore := List (String × Bucket)

/-- `caches.keys()`: the bucket names in enumeration order. -/
def cachesKeys (s : CacheStore) : List String := s.map Prod.fst

/-- `cache.match(key)` inside one bucket. -/
def bucketMatch (k : String) : Bucket → Option Response
  | [] => none
  | (k', r) :: t => if k' == k then some r else bucketMatch k t

/-- `cache.put(key, response)`: overwrite the entry with that key, or
append a new entry. -/
def bucketPut (k : String) (r : Response) : Bucket → Bucket
  | [] => [(k, r)]
  | (k', r') :: t => if k' == k then (k, r) :: t else (k', r') :: bucketPut k r t

/-- The contents of the named bucket (empty when absent). -/
def bucketOf (name : String) : CacheStore → Bucket
  | [] => []
  | (n, b) :: t => if n == name then b else bucketOf name t

/-- `caches.open(name).then(cache => cache.put(key, response))`:
put into the named bucket, creating it when absent. -/
def storePut (bname k : String) (r : Response) : CacheStore → CacheStore
  | [] => [(bname, bucketPut k r [])]
  | (n, b) :: t =>
    if n == bname then (n, bucketPut k r b) :: t
    else (n, b) :: storePut bname k r t

/-- `caches.match(key)`: search every bucket in enumeration order. -/
def storeMatch (k : String) : CacheStore → Option Response
  | [] => none
  | (_, b) :: t =>
    match bucketMatch k b with
    | some r => some r
    | none => storeMatch k t

/-- `caches.delete(name)`: remove the named bucket. -/
def deleteBucket (name : String) (s : CacheStore) : CacheStore :=
  s.filter (fun e => !(e.1 == name))

/-- Issue a `caches.delete` for each listed name; a name on which the
platform delete rejects (`fail n = true`) leaves its bucket in place,
the other deletions still happen (all were already initiated by
`map` before `Promise.all` settles). -/
def runDeletes (fail : String → Bool) : List String → CacheStore → CacheStore
  | [], s => s
  | n :: t, s => runDeletes fail t (if fail n then s else deleteBucket n s)

/-! ### v2 worker constants (source lines 91-118) -/

def STATIC_CACHE : String := "zombie-static-v2.0"
def DYNAMIC_CACHE : String := "zombie-dynamic-v2.0"

def STATIC_FILES : List String :=
  [ "/",
    "/index.html",
    "/manifest.json",
    "/logozombie.png",
    "https://cdn.tailwindcss.com",
    "https://fonts.googleapis.com/css2?family=Orbitron:wght@400;900&family=Inter:wght@400;500;700&display=swap",
    "https://cdn-icons-png.flaticon.com/512/3408/3408545.png",
    "https://cdn-icons-png.flaticon.com/512/4140/4140037.png",
    "https://cdn-icons-png.flaticon.com/512/1154/1154443.png",
    "https://cdn-icons-png.flaticon.com/512/606/606553.png",
    "https://cdn-icons-png.flaticon.com/512/2966/2966327.png",
    "https://cdn-icons-png.flaticon.com/512/2590/2590525.png",
    "https://cdn-icons-png.flaticon.com/512/1066/1066744.png",
    "https://cdn-icons-png.flaticon.com/512/1067/1067357.png" ]

/-! ### v2 request classification (fetch handler, source lines 164-228) -/

/-- Which branch of the v2 fetch handler a request reaches. -/
inductive Decision where
  | passthrough
  | apiNetworkFirst
  | cacheFirst
  | defaultNetworkFirst
deriving DecidableEq

/-- The static-asset membership test at source line 196:
`STATIC_FILES.some(file => url.href.includes(file.split('/').pop()))`. -/
def staticMatch (href : String) : Bool :=
  STATIC_FILES.any (fun f => strContains href (basename f))

/-- The routing checks of the v2 fetch handler, in source order:
websocket schemes return without intercepting; URLs containing
`firebase` or `googleapis` go to the API network-first branch; URLs
passing `staticMatch` go to the cache-first branch; everything else to
the default network-first branch. -/
def classify (req : Request) : Decision :=
  if urlProtocol req.href = "ws:" ∨ urlProtocol req.href = "wss:" then
    .passthrough
  else if strContains req.href "firebase" || strContains req.href "googleapis" then
    .apiNetworkFirst
  else if staticMatch req.href then
    .cacheFirst
  else
    .defaultNetworkFirst

/-! ### v2 strategy executors (fetch handler branches) -/

/-- The synthesized offline page of the default network-first branch
(source lines 252-255): `new Response('<h1>...', {headers: ...})`,
whose status defaults to 200 and statusText to the empty string. -/
def offlineHtmlResponse : Response :=
  ⟨200, "", "<h1>Zombie Survivor - Modo Offline</h1><p>No hay conexión a internet.</p>"⟩

/-- The synthesized offline error of the default network-first branch
(source line 259): `new Response('', {status: 408, statusText: 'Offline'})`. -/
def offline408Response : Response := ⟨408, "Offline", ""⟩

/-- The firebase/googleapis branch (source lines 174-191): fetch; on a
200 response put a clone into the dynamic bucket and return the
response; on any other response return it unchanged; on fetch failure
fall back to `caches.match`, which resolves to the cached entry or to
`undefined`. -/
def firebaseExec (req : Request) (net : NetResult) (s : CacheStore) :
    FetchResult × CacheStore :=
  match net with
  | .success r =>
    if r.status = 200 then (.responded r, storePut DYNAMIC_CACHE req.href r s)
    else (.responded r, s)
  | .failure =>
    match storeMatch req.href s with
    | some c => (.responded c, s)
    | none => (.noResponse, s)

/-- The cache-first branch (source lines 197-223): `caches.match`
first; on a hit return the cached response; on a miss fetch, caching a
200 response into the static bucket before returning it; the catch on
fetch failure only logs, so the promise resolves with `undefined`. -/
def cacheFirstExec (req : Request) (net : NetResult) (s : CacheStore) :
    FetchResult × CacheStore :=
  match storeMatch req.href s with
  | some c => (.responded c, s)
  | none =>
    match net with
    | .success r =>
      if r.status = 200 then (.responded r, storePut STATIC_CACHE req.href r s)
      else (.responded r, s)
    | .failure => (.noResponse, s)

/-- The default network-first branch (source lines 228-262): fetch; on
a 200 response put a clone into the dynamic bucket; on fetch failure
try the cache, then (for requests whose accept header contains
`text/html`) the cached root document or the synthesized offline page,
otherwise the 408 response.  When the accept header is absent,
`event.request.headers.get('accept')` is `null` and `.includes` throws,
rejecting the promise. -/
def defaultExec (req : Request) (net : NetResult) (s : CacheStore) :
    FetchResult × CacheStore :=
  match net with
  | .success r =>
    if r.status = 200 then (.responded r, storePut DYNAMIC_CACHE req.href r s)
    else (.responded r, s)
  | .failure =>
    match storeMatch req.href s with
    | some c => (.responded c, s)
    | none =>
      match req.accept with
      | none => (.rejected, s)
      | some a =>
        if strContains a "text/html" then
          match storeMatch "/" s with
          | some home => (.responded home, s)
          | none => (.responded offlineHtmlResponse, s)
        else (.responded offline408Response, s)

/-- The whole v2 fetch handler: classify, then run the selected branch.
`none` in the first component means the handler returned without
calling `event.respondWith` (passthrough). -/
def handleFetch (req : Request) (net : NetResult) (s : CacheStore) :
    Option FetchResult × CacheStore :=
  match classify req with
  | .passthrough => (none, s)
  | .apiNetworkFirst =>
    let p := firebaseExec req net s
    (some p.1, p.2)
  | .cacheFirst =>
    let p := cacheFirstExec req net s
    (some p.1, p.2)
  | .defaultNetworkFirst =>
    let p := defaultExec req net s
    (some p.1, p.2)

/-! ### v2 activate handler (source lines 141-161) -/

/-- The names the activate handler deletes:
every existing bucket name other than `STATIC_CACHE`/`DYNAMIC_CACHE`. -/
def pruneDeletions (names : List String) : List String :=
  names.filter (fun n => !(n == STATIC_CACHE || n == DYNAMIC_CACHE))

/-- The cache store after the activate handler's prune has run
(deletions succeeding). -/
def pruneState (s : CacheStore) : CacheStore :=
  runDeletes (fun _ => false) (pruneDeletions (cachesKeys s)) s

/-! ### v2 message handler (source lines 266-289) -/

/-- Replies posted on the provided message port. -/
inductive Reply where
  | cacheInfo (cacheNames : List String)
  | cacheCleared
deriving DecidableEq

/-- `GET_CACHE_INFO`: reply with `caches.keys()`; the store is not
changed. -/
def getCacheInfo (s : CacheStore) : Reply := .cacheInfo (cachesKeys s)

/-- `CLEAR_CACHE` (source lines 280-288): `caches.keys()`, then a
`caches.delete` for every name under `Promise.all`, then post
`CACHE_CLEARED`.  `fail` says on which names the platform delete
rejects; every delete is issued regardless (the `map` starts them all),
but a single rejection makes `Promise.all` reject, skipping the `then`
that posts the reply, so the reply is `none` unless every delete
succeeded. -/
def clearCache (fail : String → Bool) (s : CacheStore) :
    Option Reply × CacheStore :=
  ((if (cachesKeys s).all (fun n => !fail n) then some .cacheCleared else none),
   runDeletes fail (cachesKeys s) s)

/-! ### v1 fetch handler exclusions (source lines 45-51) -/

/-- The v1 fetch handler returns without intercepting when the URL
contains `firebase`, `.mp4` or `.mp3`; otherwise it runs its
cache-first strategy. -/
def classifyV1 (href : String) : Decision :=
  if strContains href "firebase" || strContains href ".mp4" || strContains href ".mp3" then
    .passthrough
  else
    .cacheFirst

/-! ### Reachability after activation -/

/-- The bucket-set invariant: every bucket name in the store is the
current static or dynamic bucket. -/
def BucketInv (s : CacheStore) : Prop :=
  ∀ n ∈ cachesKeys s, n = STATIC_CACHE ∨ n = DYNAMIC_CACHE

/-- Cache-store states reachable once activation has completed: the
pruned store, and anything obtained from a reachable state by handling
a fetch event or a `CLEAR_CACHE` message (`GET_CACHE_INFO` and
`SKIP_WAITING` leave the store unchanged). -/
inductive Reachable : CacheStore → Prop where
  | activated (s : CacheStore) : Reachable (pruneState s)
  | fetchStep (req : Request) (net : NetResult) (s : CacheStore) :
      Reachable s → Reachable (handleFetch req net s).2
  | clearStep (fail : String → Bool) (s : CacheStore) :
      Reachable s → Reachable (clearCache fail s).2

/-! ### String lemmas -/

theorem listContains_nil (s : List Char) : listContains [] s = true := by
  cases s <;> simp [listContains, listPrefixOf]

theorem listPrefixOf_self (l : List Char) : listPrefixOf l l = true := by
  induction l with
  | nil => rfl
  | cons a t ih => simp [listPrefixOf, ih]

theorem listContains_of_prefixOf {p s : List Char} (h : listPrefixOf p s = true) :
    listContains p s = true := by
  cases s with
  | nil => simpa [listContains] using h
  | cons a t => simp [listContains, h]

theorem listEndsWith_nil (s : List Char) : listEndsWith [] s = true := by
  induction s with
  | nil => rfl
  | cons a t ih => simp [listEndsWith, ih]

theorem listContains_of_endsWith {p s : List Char} (h : listEndsWith p s = true) :
    listContains p s = true := by
  induction s with
  | nil =>
    have hp : p = [] := by simpa [listEndsWith] using h
    subst hp
    rfl
  | cons a t ih =>
    have hor : p = a :: t ∨ listEndsWith p t = true := by
      simpa [listEndsWith] using h
    rcases hor with h1 | h1
    · subst h1
      exact listContains_of_prefixOf (listPrefixOf_self _)
    · simp [listContains, ih h1]

theorem strContains_nil (s : String) : strContains s "" = true :=
  listContains_nil s.data

theorem strEndsWith_nil (s : String) : strEndsWith s "" = true :=
  listEndsWith_nil s.data

theorem strContains_of_endsWith {s p : String} (h : strEndsWith s p = true) :
    strContains s p = true :=
  listContains_of_endsWith h

/-! ### Classifier lemmas -/

theorem basename_root : basename "/" = "" := by decide

/-- The membership test of source line 196 accepts every URL, because
the entry `/` of `STATIC_FILES` has the empty basename and every string
contains the empty string. -/
theorem staticMatch_eq_true (href : String) : staticMatch href = true := by
  unfold staticMatch STATIC_FILES
  rw [List.any_cons, basename_root, strContains_nil]
  rfl

theorem classify_cacheFirst (req : Request)
    (h1 : ¬(urlProtocol req.href = "ws:" ∨ urlProtocol req.href = "wss:"))
    (h2 : strContains req.href "firebase" = false)
    (h3 : strContains req.href "googleapis" = false) :
    classify req = Decision.cacheFirst := by
  simp [classify, h1, h2, h3, staticMatch_eq_true]

theorem classify_ne_default (req : Request) :
    classify req ≠ Decision.defaultNetworkFirst := by
  unfold classify
  split_ifs with h1 h2 h3
  · exact fun hc => Decision.noConfusion hc
  · exact fun hc => Decision.noConfusion hc
  · exact fun hc => Decision.noConfusion hc
  · exact absurd (staticMatch_eq_true req.href) h3

/-! ### Cache-store lemmas -/

theorem bucketMatch_bucketPut (k : String) (r : Response) (b : Bucket) :
    bucketMatch k (bucketPut k r b) = some r := by
  induction b with
  | nil => simp [bucketPut, bucketMatch]
  | cons e t ih =>
    rcases e with ⟨k', r'⟩
    by_cases h : k' == k
    · simp [bucketPut, bucketMatch, h]
    · simp only [bucketPut]
      rw [if_neg (by simpa using h)]
      simp [bucketMatch, h, ih]

theorem bucketOf_storePut (n k : String) (r : Response) (s : CacheStore) :
    bucketOf n (storePut n k r s) = bucketPut k r (bucketOf n s) := by
  induction s with
  | nil => simp [storePut, bucketOf]
  | cons e t ih =>
    rcases e with ⟨n', b⟩
    by_cases h : n' == n
    · simp [storePut, bucketOf, h]
    · simp only [storePut]
      rw [if_neg (by simpa using h)]
      simp [bucketOf, h, ih]

theorem mem_cachesKeys_storePut (x bname k : String) (r : Response) (s : CacheStore) :
    x ∈ cachesKeys (storePut bname k r s) → x = bname ∨ x ∈ cachesKeys s := by
  induction s with
  | nil =>
    intro h
    simp [storePut, cachesKeys] at h
    exact Or.inl h
  | cons e t ih =>
    rcases e with ⟨n, b⟩
    by_cases hb : n == bname
    · intro h
      simp only [storePut] at h
      rw [if_pos hb] at h
      simp [cachesKeys] at h ⊢
      tauto
    · intro h
      simp only [storePut] at h
      rw [if_neg (by simpa using hb)] at h
      simp [cachesKeys] at h ⊢
      rcases h with h | h
      · exact Or.inr (Or.inl h)
      · rcases ih (by simpa [cachesKeys] using h) with h' | h'
        · exact Or.inl h'
        · exact Or.inr (Or.inr (by simpa [cachesKeys] using h'))

theorem mem_deleteBucket (n : String) (s : CacheStore) (e : String × Bucket) :
    e ∈ deleteBucket n s ↔ e ∈ s ∧ ¬(e.1 = n) := by
  simp [deleteBucket, List.mem_filter]

theorem mem_runDeletes (fail : String → Bool) (names : List String)
    (s : CacheStore) (e : String × Bucket) :
    e ∈ runDeletes fail names s ↔ e ∈ s ∧ (fail e.1 = true ∨ e.1 ∉ names) := by
  induction names generalizing s with
  | nil => simp [runDeletes]
  | cons n t ih =>
    simp only [runDeletes]
    by_cases hf : fail n
    · rw [if_pos hf, ih]
      constructor
      · rintro ⟨hs, hc⟩
        refine ⟨hs, ?_⟩
        rcases hc with hc | hc
        · exact Or.inl hc
        · by_cases he : e.1 = n
          · exact Or.inl (he ▸ hf)
          · exact Or.inr (by simp [List.mem_cons, he, hc])
      · rintro ⟨hs, hc⟩
        refine ⟨hs, ?_⟩
        rcases hc with hc | hc
        · exact Or.inl hc
        · exact Or.inr (fun hm => hc (List.mem_cons_of_mem n hm))
    · rw [if_neg hf, ih, mem_deleteBucket]
      constructor
      · rintro ⟨⟨hs, hne⟩, hc⟩
        refine ⟨hs, ?_⟩
        rcases hc with hc | hc
        · exact Or.inl hc
        · exact Or.inr (by simp [List.mem_cons, hne, hc])
      · rintro ⟨hs, hc⟩
        have hne : ¬(e.1 = n) := by
          intro he
          rcases hc with hc | hc
          · exact hf (by simpa [he] using hc)
          · exact hc (by simp [he])
        refine ⟨⟨hs, hne⟩, ?_⟩
        rcases hc with hc | hc
        · exact Or.inl hc
        · exact Or.inr (fun hm => hc (List.mem_cons_of_mem n hm))

theorem mem_cachesKeys_iff (n : String) (s : CacheStore) :
    n ∈ cachesKeys s ↔ ∃ e ∈ s, e.1 = n := by
  simp [cachesKeys, List.mem_map]

theorem cachesKeys_pruneState (n : String) (s : CacheStore)
    (h : n ∈ cachesKeys (pruneState s)) :
    n = STATIC_CACHE ∨ n = DYNAMIC_CACHE := by
  rcases (mem_cachesKeys_iff n _).mp h with ⟨e, he, hen⟩
  rw [pruneState, mem_runDeletes] at he
  rcases he with ⟨hs, hc⟩
  rcases hc with hc | hc
  · exact absurd hc (by simp)
  · have hk : e.1 ∈ cachesKeys s := (mem_cachesKeys_iff e.1 s).mpr ⟨e, hs, rfl⟩
    by_contra hnot
    push_neg at hnot
    apply hc
    rw [pruneDeletions, List.mem_filter]
    refine ⟨hk, ?_⟩
    simp [hen, hnot.1, hnot.2]

/-! ### Invariant lemmas -/

theorem firebaseExec_state (req : Request) (net : NetResult) (s : CacheStore) :
    (firebaseExec req net s).2 = s ∨
    ∃ r, (firebaseExec req net s).2 = storePut DYNAMIC_CACHE req.href r s := by
  unfold firebaseExec
  cases net with
  | success r =>
    by_cases h : r.status = 200
    · exact Or.inr ⟨r, by simp [h]⟩
    · exact Or.inl (by simp [h])
  | failure =>
    rcases hm : storeMatch req.href s with _ | c <;> simp [hm]

theorem cacheFirstExec_state (req : Request) (net : NetResult) (s : CacheStore) :
    (cacheFirstExec req net s).2 = s ∨
    ∃ r, (cacheFirstExec req net s).2 = storePut STATIC_CACHE req.href r s := by
  unfold cacheFirstExec
  rcases hm : storeMatch req.href s with _ | c
  · cases net with
    | success r =>
      by_cases h : r.status = 200
      · exact Or.inr ⟨r, by simp [h]⟩
      · exact Or.inl (by simp [h])
    | failure => simp
  · simp

theorem defaultExec_state (req : Request) (net : NetResult) (s : CacheStore) :
    (defaultExec req net s).2 = s ∨
    ∃ r, (defaultExec req net s).2 = storePut DYNAMIC_CACHE req.href r s := by
  unfold defaultExec
  cases net with
  | success r =>
    by_cases h : r.status = 200
    · exact Or.inr ⟨r, by simp [h]⟩
    · exact Or.inl (by simp [h])
  | failure =>
    rcases hm : storeMatch req.href s with _ | c
    · rcases ha : req.accept with _ | a
      · simp
      · by_cases hh : strContains a "text/html" = true
        · rcases hh2 : storeMatch "/" s with _ | home <;> simp [hh, hh2]
        · simp [hh]
    · simp

theorem bucketInv_storePut (bname k : String) (r : Response) (s : CacheStore)
    (hb : bname = STATIC_CACHE ∨ bname = DYNAMIC_CACHE) (h : BucketInv s) :
    BucketInv (storePut bname k r s) := by
  intro n hn
  rcases mem_cachesKeys_storePut n bname k r s hn with hn' | hn'
  · exact hn' ▸ hb
  · exact h n hn'

theorem bucketInv_handleFetch (req : Request) (net : NetResult) (s : CacheStore)
    (h : BucketInv s) : BucketInv (handleFetch req net s).2 := by
  have hfb : BucketInv (firebaseExec req net s).2 := by
    rcases firebaseExec_state req net s with he | ⟨r, he⟩
    · rw [he]; exact h
    · rw [he]; exact bucketInv_storePut _ _ _ _ (Or.inr rfl) h
  have hcf : BucketInv (cacheFirstExec req net s).2 := by
    rcases cacheFirstExec_state req net s with he | ⟨r, he⟩
    · rw [he]; exact h
    · rw [he]; exact bucketInv_storePut _ _ _ _ (Or.inl rfl) h
  have hdf : BucketInv (defaultExec req net s).2 := by
    rcases defaultExec_state req net s with he | ⟨r, he⟩
    · rw [he]; exact h
    · rw [he]; exact bucketInv_storePut _ _ _ _ (Or.inr rfl) h
  unfold handleFetch
  rcases hc : classify req <;> simp [hc, h, hfb, hcf, hdf]

theorem bucketInv_clearCache (fail : String → Bool) (s : CacheStore)
    (h : BucketInv s) : BucketInv (clearCache fail s).2 := by
  intro n hn
  rcases (mem_cachesKeys_iff n _).mp hn with ⟨e, he, hen⟩
  have he' : e ∈ s := ((mem_runDeletes fail (cachesKeys s) s e).mp he).1
  exact h n ((mem_cachesKeys_iff n s).mpr ⟨e, he', hen⟩)

theorem bucketInv_reachable (s : CacheStore) (h : Reachable s) : BucketInv s := by
  induction h with
  | activated s0 => exact fun n hn => cachesKeys_pruneState n s0 hn
  | fetchStep req net s0 _ ih => exact bucketInv_handleFetch req net s0 ih
  | clearStep fail s0 _ ih => exact bucketInv_clearCache fail s0 ih

/-! ### Claims -/

/-- Claim C2: for every request not matched by the websocket or
firebase/googleapis rules, the classifier selects the cache-first
branch exactly when the request URL ends with the basename of some
entry of `STATIC_FILES`.  Both sides are unconditionally true: the
list entry `/` has the empty basename, which is a suffix (and a
substring) of every URL. -/
theorem claim_C2 (req : Request)
    (h1 : ¬(urlProtocol req.href = "ws:" ∨ urlProtocol req.href = "wss:"))
    (h2 : strContains req.href "firebase" = false)
    (h3 : strContains req.href "googleapis" = false) :
    classify req = Decision.cacheFirst ↔
      ∃ f ∈ STATIC_FILES, strEndsWith req.href (basename f) = true := by
  constructor
  · intro _
    refine ⟨"/", by decide, ?_⟩
    rw [basename_root]
    exact strEndsWith_nil req.href
  · intro _
    exact classify_cacheFirst req h1 h2 h3

/-- Instance of C2 at a concrete request. -/
theorem claim_C2_witness :
    classify ⟨"https://example.com/page", none⟩ = Decision.cacheFirst ↔
      ∃ f ∈ STATIC_FILES, strEndsWith "https://example.com/page" (basename f) = true :=
  claim_C2 ⟨"https://example.com/page", none⟩ (by decide) (by decide) (by decide)

/-- Claim C3: the static-asset membership test is true for every URL
(because of the `/` entry), every request that is not ws:/wss: and does
not contain `firebase`/`googleapis` is routed cache-first, and the
default network-first branch of the v2 fetch handler is unreachable. -/
theorem claim_C3 :
    (∀ href : String, staticMatch href = true)
  ∧ (∀ req : Request,
      ¬(urlProtocol req.href = "ws:" ∨ urlProtocol req.href = "wss:") →
      strContains req.href "firebase" = false →
      strContains req.href "googleapis" = false →
      classify req = Decision.cacheFirst)
  ∧ (∀ req : Request, classify req ≠ Decision.defaultNetworkFirst) :=
  ⟨staticMatch_eq_true,
   fun req h1 h2 h3 => classify_cacheFirst req h1 h2 h3,
   classify_ne_default⟩

/-- Instance of C3 at a concrete request. -/
theorem claim_C3_witness :
    classify ⟨"https://example.com/anything.bin", some "x"⟩ = Decision.cacheFirst :=
  claim_C3.2.1 ⟨"https://example.com/anything.bin", some "x"⟩
    (by decide) (by decide) (by decide)

/-- Claim C10: the activate handler's prune deletes exactly the bucket
names outside the current bucket set, and running prune again on the
pruned store performs no deletions. -/
theorem claim_C10 (s : CacheStore) :
    (∀ n, n ∈ pruneDeletions (cachesKeys s) ↔
      n ∈ cachesKeys s ∧ ¬(n = STATIC_CACHE) ∧ ¬(n = DYNAMIC_CACHE))
  ∧ pruneDeletions (cachesKeys (pruneState s)) = [] := by
  constructor
  · intro n
    rw [pruneDeletions, List.mem_filter]
    simp
  · rw [pruneDeletions, List.filter_eq_nil_iff]
    intro n hn
    rcases cachesKeys_pruneState n s hn with h | h <;> simp [h]

/-- Claim C8: in every cache-store state reachable after activation
(prune having run, then any sequence of fetch events and cache-clearing
messages), `GET_CACHE_INFO` reports only the current static and
dynamic bucket names. -/
theorem claim_C8 (s : CacheStore) (hs : Reachable s) (names : List String)
    (hg : getCacheInfo s = Reply.cacheInfo names) :
    ∀ n ∈ names, n = STATIC_CACHE ∨ n = DYNAMIC_CACHE := by
  intro n hn
  have hinv := bucketInv_reachable s hs
  have hnames : names = cachesKeys s := by
    unfold getCacheInfo at hg
    injection hg with h
    exact h.symm
  exact hinv n (hnames ▸ hn)

/-- Instance of C8 for the pruned store of a one-bucket state. -/
theorem claim_C8_witness :
    "zombie-static-v2.0" = STATIC_CACHE ∨ "zombie-static-v2.0" = DYNAMIC_CACHE :=
  claim_C8 (pruneState [(STATIC_CACHE, [])]) (Reachable.activated _)
    (cachesKeys (pruneState [(STATIC_CACHE, [])])) rfl
    "zombie-static-v2.0" (by decide)

/-- Claim C5: for both network-first branches (firebase/googleapis and
default), a network fetch succeeding with status 200 makes the dynamic
bucket contain an entry for the request key, and the caller receives
the network response itself (hence the same status and body). -/
theorem claim_C5 (req : Request) (resp : Response) (s : CacheStore)
    (h : resp.status = 200) :
    (firebaseExec req (NetResult.success resp) s).1 = FetchResult.responded resp
  ∧ bucketMatch req.href
      (bucketOf DYNAMIC_CACHE (firebaseExec req (NetResult.success resp) s).2) = some resp
  ∧ (defaultExec req (NetResult.success resp) s).1 = FetchResult.responded resp
  ∧ bucketMatch req.href
      (bucketOf DYNAMIC_CACHE (defaultExec req (NetResult.success resp) s).2) = some resp := by
  simp [firebaseExec, defaultExec, h, bucketOf_storePut, bucketMatch_bucketPut]

/-- Instance of C5 at a concrete request, response and empty store. -/
theorem claim_C5_witness :
    bucketMatch "https://api.example/data"
      (bucketOf DYNAMIC_CACHE
        (defaultExec ⟨"https://api.example/data", some "a"⟩
          (NetResult.success ⟨200, "OK", "BODY"⟩) []).2) = some ⟨200, "OK", "BODY"⟩ :=
  (claim_C5 ⟨"https://api.example/data", some "a"⟩ ⟨200, "OK", "BODY"⟩ [] rfl).2.2.2

/-- Counterexample to claim C6: a request that accepts HTML, has no
cached entry for its own key, but whose store holds a cached root
document: the executor returns the cached home page, whose body does
not contain the offline-page markup. -/
theorem claim_C6_counterexample :
    (defaultExec ⟨"https://game.example/profile", some "text/html"⟩ NetResult.failure
        [("zombie-dynamic-v2.0", [("/", ⟨200, "", "HOME PAGE"⟩)])]).1
      = FetchResult.responded ⟨200, "", "HOME PAGE"⟩
  ∧ storeMatch "https://game.example/profile"
      [("zombie-dynamic-v2.0", [("/", ⟨200, "", "HOME PAGE"⟩)])] = none
  ∧ strContains "HOME PAGE" "Modo Offline" = false := by decide

/-- Claim C6 as amended: on a failing network fetch in the default
network-first branch, a cached entry for the exact request is returned
if present; otherwise, for a request whose accept header contains
`text/html`, the cached root document is returned when one exists and
only in its absence the synthesized offline page (markup, status 200);
for other accept headers the 408 response is returned.  (A request with
no accept header at all makes the handler throw instead.) -/
theorem claim_C6_amended (req : Request) (s : CacheStore) (a : String)
    (hacc : req.accept = some a) :
    (∀ c, storeMatch req.href s = some c →
        defaultExec req NetResult.failure s = (FetchResult.responded c, s))
  ∧ (storeMatch req.href s = none → strContains a "text/html" = true →
        ((∀ hm, storeMatch "/" s = some hm →
            defaultExec req NetResult.failure s = (FetchResult.responded hm, s))
         ∧ (storeMatch "/" s = none →
            defaultExec req NetResult.failure s =
              (FetchResult.responded offlineHtmlResponse, s))))
  ∧ (storeMatch req.href s = none → strContains a "text/html" = false →
        defaultExec req NetResult.failure s = (FetchResult.responded offline408Response, s))
  ∧ (storeMatch req.href s = none → req.accept = none →
        defaultExec req NetResult.failure s = (FetchResult.rejected, s))
  ∧ offlineHtmlResponse.status = 200
  ∧ strContains offlineHtmlResponse.body "Modo Offline" = true
  ∧ offline408Response.status = 408 := by
  refine ⟨?_, ?_, ?_, ?_, by decide, by decide, by decide⟩
  · intro c hc
    simp [defaultExec, hc]
  · intro h0 hhtml
    constructor
    · intro hm hhome
      simp [defaultExec, hacc, h0, hhtml, hhome]
    · intro hhome
      simp [defaultExec, hacc, h0, hhtml, hhome]
  · intro h0 hno
    simp [defaultExec, hacc, h0, hno]
  · intro h0 hnone
    rw [hacc] at hnone
    exact absurd hnone (by simp)

/-- Instance of the amended C6: non-HTML request, empty store, failing
network fetch yields the 408 response. -/
theorem claim_C6_witness :
    defaultExec ⟨"https://game.example/data.json", some "application/json"⟩
        NetResult.failure [] = (FetchResult.responded offline408Response, []) :=
  (claim_C6_amended ⟨"https://game.example/data.json", some "application/json"⟩
    [] "application/json" rfl).2.2.1 rfl (by decide)

/-- Claim C7: no branch of the v2 fetch handler writes to any cache
bucket when the network fetch failed or returned a non-200 status: the
cache store is left unchanged by the whole handler and by each of its
three intercepting branches. -/
theorem claim_C7 (req : Request) (net : NetResult) (s : CacheStore)
    (h : ∀ r, net = NetResult.success r → ¬(r.status = 200)) :
    (handleFetch req net s).2 = s
  ∧ (firebaseExec req net s).2 = s
  ∧ (cacheFirstExec req net s).2 = s
  ∧ (defaultExec req net s).2 = s := by
  have hf : (firebaseExec req net s).2 = s := by
    unfold firebaseExec
    cases net with
    | success r => simp [h r rfl]
    | failure => rcases hm : storeMatch req.href s with _ | c <;> simp [hm]
  have hc : (cacheFirstExec req net s).2 = s := by
    unfold cacheFirstExec
    rcases hm : storeMatch req.href s with _ | c
    · cases net with
      | success r => simp [h r rfl]
      | failure => simp
    · simp
  have hd : (defaultExec req net s).2 = s := by
    unfold defaultExec
    cases net with
    | success r => simp [h r rfl]
    | failure =>
      rcases hm : storeMatch req.href s with _ | c
      · rcases ha : req.accept with _ | a
        · simp
        · by_cases hh : strContains a "text/html" = true
          · rcases hh2 : storeMatch "/" s with _ | home <;> simp [hh, hh2]
          · simp [hh]
      · simp
  refine ⟨?_, hf, hc, hd⟩
  unfold handleFetch
  rcases hcl : classify req <;> simp [hf, hc, hd]

/-- Instance of C7: a failing fetch on an empty store changes nothing. -/
theorem claim_C7_witness :
    (handleFetch ⟨"https://example.com/a.js", some "x"⟩ NetResult.failure []).2 = [] :=
  (claim_C7 ⟨"https://example.com/a.js", some "x"⟩ NetResult.failure []
    (fun _ hr => nomatch hr)).1

/-- Counterexample to claim C1: an intercepted request (cache-first
branch) with an empty cache and a failing network fetch: the catch of
that branch only logs, so the promise given to `respondWith` resolves
with no response at all. -/
theorem claim_C1_counterexample :
    handleFetch ⟨"https://example.com/app.js", some "application/json"⟩
        NetResult.failure [] = (some FetchResult.noResponse, []) := by decide

/-- Claim C1 as amended: only the default network-first branch
guarantees a response, and only when the request carries an accept
header; there the worst case is the synthesized 408 `Offline` response
with empty body.  The cache-first and firebase branches resolve with no
response when the cache misses and the network fails, and a missing
accept header makes the fallback throw. -/
theorem claim_C1_amended (req : Request) (net : NetResult) (s : CacheStore)
    (a : String) (hacc : req.accept = some a) :
    (∃ r, (defaultExec req net s).1 = FetchResult.responded r)
  ∧ (net = NetResult.failure → storeMatch req.href s = none →
      strContains a "text/html" = false →
      (defaultExec req net s).1 = FetchResult.responded offline408Response)
  ∧ offline408Response.status = 408
  ∧ offline408Response.statusText = "Offline"
  ∧ offline408Response.body = "" := by
  refine ⟨?_, ?_, rfl, rfl, rfl⟩
  · unfold defaultExec
    cases net with
    | success r =>
      by_cases h : r.status = 200
      · exact ⟨r, by simp [h]⟩
      · exact ⟨r, by simp [h]⟩
    | failure =>
      rcases hm : storeMatch req.href s with _ | c
      · rw [hacc]
        by_cases hh : strContains a "text/html" = true
        · rcases hh2 : storeMatch "/" s with _ | home
          · exact ⟨offlineHtmlResponse, by simp [hm, hh, hh2]⟩
          · exact ⟨home, by simp [hm, hh, hh2]⟩
        · exact ⟨offline408Response, by simp [hm, hh]⟩
      · exact ⟨c, by simp [hm]⟩
  · intro hnet h0 hno
    subst hnet
    simp [defaultExec, hacc, h0, hno]

/-- Instance of the amended C1: failing fetch, empty store, non-HTML
accept header yields the 408 response. -/
theorem claim_C1_witness :
    (defaultExec ⟨"https://example.com/x.json", some "application/json"⟩
        NetResult.failure []).1 = FetchResult.responded offline408Response :=
  (claim_C1_amended ⟨"https://example.com/x.json", some "application/json"⟩
    NetResult.failure [] "application/json" rfl).2.1 rfl rfl (by decide)

/-- Counterexample to claim C4: the v2 classifier does not treat
streaming-media URLs as passthrough; a request ending in `.mp4` is
routed to the cache-first branch. -/
theorem claim_C4_counterexample :
    classify ⟨"https://example.com/video.mp4", none⟩ = Decision.cacheFirst ∧
    Decision.cacheFirst ≠ Decision.passthrough := by decide

/-- Claim C4 as amended: the media-extension exclusion exists only in
the v1 fetch handler, whose substring test covers every URL ending in
`.mp4` or `.mp3` (passthrough); the v2 fetch handler has no media rule,
so such a request, unless websocket or firebase/googleapis, is
classified cache-first. -/
theorem claim_C4_amended (req : Request)
    (hmedia : strEndsWith req.href ".mp4" = true ∨ strEndsWith req.href ".mp3" = true) :
    classifyV1 req.href = Decision.passthrough ∧
    (¬(urlProtocol req.href = "ws:" ∨ urlProtocol req.href = "wss:") →
     strContains req.href "firebase" = false →
     strContains req.href "googleapis" = false →
     classify req = Decision.cacheFirst) := by
  constructor
  · unfold classifyV1
    rcases hmedia with h | h
    · simp [strContains_of_endsWith h]
    · simp [strContains_of_endsWith h]
  · intro h1 h2 h3
    exact classify_cacheFirst req h1 h2 h3

/-- Instance of the amended C4 at a concrete `.mp4` URL. -/
theorem claim_C4_witness :
    classifyV1 "https://example.com/video.mp4" = Decision.passthrough ∧
    classify ⟨"https://example.com/video.mp4", none⟩ = Decision.cacheFirst :=
  ⟨(claim_C4_amended ⟨"https://example.com/video.mp4", none⟩ (Or.inl (by decide))).1,
   (claim_C4_amended ⟨"https://example.com/video.mp4", none⟩ (Or.inl (by decide))).2
     (by decide) (by decide) (by decide)⟩

/-- Counterexample to claim C9: when the platform delete of one bucket
rejects, `Promise.all` rejects and the `CACHE_CLEARED` reply is never
posted (the claim says the reply is posted anyway); the other bucket is
still deleted. -/
theorem claim_C9_counterexample :
    (clearCache (fun n => n == "zombie-static-v2.0")
        [("zombie-static-v2.0", []), ("zombie-dynamic-v2.0", [])]).1 = none
  ∧ (clearCache (fun n => n == "zombie-static-v2.0")
        [("zombie-static-v2.0", []), ("zombie-dynamic-v2.0", [])]).2
      = [("zombie-static-v2.0", [])] := by decide

/-- Claim C9 as amended: `CLEAR_CACHE` issues a delete for every bucket
unconditionally, and a failing delete does not prevent the deletion of
the other buckets; but the `CACHE_CLEARED` reply is posted exactly when
every deletion succeeded — a single failure suppresses it — and when
all succeed a following `GET_CACHE_INFO` reports an empty bucket
list. -/
theorem claim_C9_amended (fail : String → Bool) (s : CacheStore) :
    (∀ n, n ∈ cachesKeys s → fail n = false → n ∉ cachesKeys (clearCache fail s).2)
  ∧ ((clearCache fail s).1 = some Reply.cacheCleared ↔ ∀ n ∈ cachesKeys s, fail n = false)
  ∧ ((∀ n ∈ cachesKeys s, fail n = false) → cachesKeys (clearCache fail s).2 = []) := by
  have hmem : ∀ e : String × Bucket,
      e ∈ (clearCache fail s).2 ↔ e ∈ s ∧ (fail e.1 = true ∨ e.1 ∉ cachesKeys s) := by
    intro e
    exact mem_runDeletes fail (cachesKeys s) s e
  have hstate : ∀ n, n ∈ cachesKeys s → fail n = false →
      n ∉ cachesKeys (clearCache fail s).2 := by
    intro n hn hfn hmem'
    rcases (mem_cachesKeys_iff n _).mp hmem' with ⟨e, he, hen⟩
    rcases (hmem e).mp he with ⟨hes, hc⟩
    rcases hc with hc | hc
    · rw [hen] at hc
      rw [hfn] at hc
      exact Bool.false_ne_true hc
    · exact hc (hen ▸ hn)
  refine ⟨hstate, ?_, ?_⟩
  · unfold clearCache
    by_cases hall : (cachesKeys s).all (fun n => !fail n) = true
    · rw [if_pos hall]
      refine iff_of_true rfl ?_
      intro n hn
      simpa using (List.all_eq_true.mp hall) n hn
    · rw [if_neg hall]
      constructor
      · intro hcontr
        exact absurd hcontr (by simp)
      · intro hok
        exfalso
        apply hall
        rw [List.all_eq_true]
        intro n hn
        simpa using hok n hn
  · intro hok
    rw [List.eq_nil_iff_forall_not_mem]
    intro n hn
    rcases (mem_cachesKeys_iff n _).mp hn with ⟨e, he, hen⟩
    rcases (hmem e).mp he with ⟨hes, hc⟩
    have hkey : e.1 ∈ cachesKeys s := (mem_cachesKeys_iff e.1 s).mpr ⟨e, hes, rfl⟩
    rcases hc with hc | hc
    · rw [hok e.1 hkey] at hc
      exact Bool.false_ne_true hc
    · exact hc hkey

/-- Instance of the amended C9: with no failing delete, a one-bucket
store is emptied. -/
theorem claim_C9_witness :
    cachesKeys (clearCache (fun _ => false) [("zombie-static-v2.0", [])]).2 = [] :=
  (claim_C9_amended (fun _ => false) [("zombie-static-v2.0", [])]).2.2
    (fun _ _ => rfl)

end ZombieSW
